import Mathlib

/- Shallow embedding of the calendr multi-admin appointment-booking API
   (Express + MySQL).  Times are modelled as integers (minutes since an
   arbitrary epoch): the DATETIME rendering 'yyyy-MM-dd HH:mm:ss' used by
   format/formatInTimeZone is injective on instants, so equality of the
   formatted strings is equality of these integers, and a time-zone
   identifier resolves (via the date-fns-tz zone database, modelled as a
   function parameter `zoneOffset`) to a fixed offset in minutes; the
   local wall-clock rendering of a UTC instant t in a zone of offset o is
   the integer t + o.  addHours(d, 24) is d + 1440 minutes.  Each MySQL
   table is a list of rows; AUTO_INCREMENT ids are modelled as max + 1. -/

namespace Calendr

/-- Status column of the reminders / thank_you_messages tables. -/
inductive MsgStatus where
  | pending
  | sent
  | failed
  deriving DecidableEq, Repr

/-- A row of the appointments table (columns written by the book route:
admin_id, slug_id, client_name, client_email, appointment_date, details,
plus the id and the created_at DB default). -/
structure Appointment where
  id : Nat
  admin_id : Nat
  slug_id : Option Nat
  client_name : String
  client_email : String
  appointment_date : Int
  details : Option String
  created_at : Int
  deriving DecidableEq, Repr

/-- A row of cancelled_appointments: exactly the columns the DELETE /:id
handler writes (id, admin_id, client_name, client_email, appointment_date,
details, created_at) plus the cancelled_at DB default.  The handler does
not copy slug_id. -/
structure CancelledAppointment where
  id : Nat
  admin_id : Nat
  client_name : String
  client_email : String
  appointment_date : Int
  details : Option String
  created_at : Int
  cancelled_at : Int
  deriving DecidableEq, Repr

/-- A row of appointment_custom_data. -/
structure CustomFieldValue where
  appointment_id : Nat
  slug_field_id : Nat
  field_value : String
  deriving DecidableEq, Repr

/-- A row of the reminders or thank_you_messages table (both have the shape
id, appointment_id, send-time, optional message, status; in the reminders
table the send-time column is called reminder_time). -/
structure MsgRec where
  id : Nat
  appointment_id : Nat
  send_time : Int
  message : Option String
  status : MsgStatus
  deriving DecidableEq, Repr

/-- The relational store. -/
structure Db where
  appointments : List Appointment
  cancelled_appointments : List CancelledAppointment
  appointment_custom_data : List CustomFieldValue
  thank_you_messages : List MsgRec
  reminders : List MsgRec
  deriving DecidableEq, Repr

def emptyDb : Db := ⟨[], [], [], [], []⟩

/-- A slug_fields row as returned by getBookingPageDetails. -/
structure SlugField where
  id : Nat
  field_name : String
  field_label : String
  deriving DecidableEq, Repr

/-- The page context produced by getBookingPageDetails: the owning admin,
the booking page (slug) id, and the page's custom field definitions. -/
structure PageContext where
  admin_id : Nat
  slug_id : Nat
  fields : List SlugField
  deriving DecidableEq, Repr

/-- JavaScript truthiness of an optional string: absent (undefined) and
the empty string are falsy, every other string is truthy. -/
def isTruthy : Option String → Bool
  | none => false
  | some s => !(s == "")

/-- The expression `client_timezone || process.env.DEFAULT_TIMEZONE`. -/
def sourceTimezone (client_timezone : Option String) (defaultTz : String) : String :=
  match client_timezone with
  | some s => if s == "" then defaultTz else s
  | none => defaultTz

/-- date-fns-tz fromZonedTime: parse the naive local date-time string and
subtract the zone offset to obtain the UTC instant.  An unparsable string
or an unknown zone identifier makes the subsequent code throw RangeError,
modelled as `none`.  `parseNaive` and `zoneOffset` are the external
date-fns parsing and zone database. -/
def fromZonedTime (parseNaive zoneOffset : String → Option Int) (dateStr tz : String) :
    Option Int :=
  match parseNaive dateStr, zoneOffset tz with
  | some t, some off => some (t - off)
  | _, _ => none

/-- Outcome of the POST /:adminSlug/:bookingSlug/book handler, after the
page has been resolved (404 is the page-resolution outcome and precedes
this function). -/
inductive BookOutcome where
  | invalidInput
  | slotConflict
  | serverFault
  | created (id : Nat)
  deriving DecidableEq, Repr

/-- The store statements executed inside the booking transaction, each of
which may throw (StoreFault); a throw anywhere before commit rolls the
transaction back. -/
inductive BookStep where
  | conflictQuery
  | insertAppt
  | insertCustomData
  | insertThankYou
  | commit
  deriving DecidableEq, Repr

/-- MySQL AUTO_INCREMENT insertId for the appointments table. -/
def nextApptId (db : Db) : Nat := (db.appointments.map (·.id)).foldl max 0 + 1

/-- MySQL AUTO_INCREMENT insertId for a message table. -/
def nextMsgId (tbl : List MsgRec) : Nat := (tbl.map (·.id)).foldl max 0 + 1

/-- The conflict query: SELECT id FROM appointments WHERE appointment_date
= ? AND admin_id = ? (page-independent, non-cancelled rows only since
cancelled rows live in a different table). -/
def hasConflict (db : Db) (adminId : Nat) (t : Int) : Bool :=
  db.appointments.any (fun a => a.appointment_date == t && a.admin_id == adminId)

/-- The customFieldData loop of the book handler: for each defined field of
the page, if the request supplied a truthy value under that field name, a
row is collected; otherwise the field is skipped. -/
def customRows (page : PageContext) (custom_fields : List (String × String)) (newId : Nat) :
    List CustomFieldValue :=
  page.fields.filterMap (fun f =>
    match custom_fields.lookup f.field_name with
    | some v => if v == "" then none else some ⟨newId, f.id, v⟩
    | none => none)

/-- The request body of the book route.  The five named keys are
destructured; every remaining key of the JSON body lands in
custom_fields (the JS rest pattern). -/
structure BookBody where
  client_name : Option String
  client_email : Option String
  appointment_date : Option String
  client_timezone : Option String
  details : Option String
  custom_fields : List (String × String)
  deriving DecidableEq, Repr

/-- The book handler (POST /:adminSlug/:bookingSlug/book) after page
resolution: field-presence validation, zoned-time conversion, the
admin-wide conflict check inside the transaction, the three inserts, and
commit; any store fault before commit rolls back, leaving the store
unchanged. -/
def book (parseNaive zoneOffset : String → Option Int) (defaultTz : String)
    (page : PageContext) (body : BookBody) (faults : BookStep → Bool)
    (now : Int) (db : Db) : BookOutcome × Db :=
  if !(isTruthy body.client_name) || !(isTruthy body.client_email)
      || !(isTruthy body.appointment_date) then
    (.invalidInput, db)
  else
    match fromZonedTime parseNaive zoneOffset (body.appointment_date.getD "")
        (sourceTimezone body.client_timezone defaultTz) with
    | none => (.invalidInput, db)
    | some utcDate =>
      if faults .conflictQuery then (.serverFault, db)
      else if hasConflict db page.admin_id utcDate then (.slotConflict, db)
      else
        let newAppointmentId := nextApptId db
        let apptData : Appointment :=
          ⟨newAppointmentId, page.admin_id, some page.slug_id,
            body.client_name.getD "", body.client_email.getD "", utcDate, body.details, now⟩
        if faults .insertAppt then (.serverFault, db)
        else
          let customFieldData := customRows page body.custom_fields newAppointmentId
          if !customFieldData.isEmpty && faults .insertCustomData then (.serverFault, db)
          else if faults .insertThankYou then (.serverFault, db)
          else if faults .commit then (.serverFault, db)
          else
            (.created newAppointmentId,
              { db with
                  appointments := db.appointments ++ [apptData],
                  appointment_custom_data := db.appointment_custom_data ++ customFieldData,
                  thank_you_messages := db.thank_you_messages ++
                    [⟨nextMsgId db.thank_you_messages, newAppointmentId,
                      utcDate + 1440, none, .pending⟩] })

/-- Outcome of the DELETE /:id cancel handler. -/
inductive CancelOutcome where
  | notFoundOrForbidden
  | success
  deriving DecidableEq, Repr

/-- The field-by-field copy the cancel handler performs into
cancelled_appointments (id, admin_id, client_name, client_email,
appointment_date, details, created_at; cancelled_at is the DB default). -/
def toCancelled (a : Appointment) (now : Int) : CancelledAppointment :=
  ⟨a.id, a.admin_id, a.client_name, a.client_email, a.appointment_date,
    a.details, a.created_at, now⟩

/-- The cancel handler (DELETE /:id): select the appointment by id and
owning admin (FOR UPDATE), copy it into cancelled_appointments, delete it
from appointments, commit. -/
def cancelAppointment (id adminId : Nat) (now : Int) (db : Db) : CancelOutcome × Db :=
  match db.appointments.find? (fun a => a.id == id && a.admin_id == adminId) with
  | none => (.notFoundOrForbidden, db)
  | some appointmentToCancel =>
    (.success,
      { db with
          cancelled_appointments :=
            db.cancelled_appointments ++ [toCancelled appointmentToCancel now],
          appointments := db.appointments.filter (fun x => !(x.id == id)) })

/-- The due query of both scheduler loops: status = 'pending' AND
send-time <= UTC_TIMESTAMP(), JOINed with the appointments table on
appointment_id (a message whose appointment row is gone is not selected). -/
def dueMessages (apps : List Appointment) (now : Int) (tbl : List MsgRec) : List MsgRec :=
  tbl.filter (fun m => m.status == .pending && decide (m.send_time ≤ now)
    && apps.any (fun a => a.id == m.appointment_id))

/-- UPDATE <table> SET status = ? WHERE id = ?. -/
def setStatus (tbl : List MsgRec) (i : Nat) (st : MsgStatus) : List MsgRec :=
  tbl.map (fun m => if m.id == i then { m with status := st } else m)

/-- What one scheduler tick did: the ids for which a Notifier send was
attempted, in order, and the resulting message table. -/
structure TickResult where
  attempts : List Nat
  table : List MsgRec
  deriving DecidableEq, Repr

/-- The per-row loop of a tick.  The Notifier call (sendReminderEmail /
sendThankYouEmail) catches its own errors and returns a boolean, so it
never throws; the status UPDATE can throw (`markFault`), and because the
single try/catch wraps the whole loop, a throw ends the tick: the row
being marked and all later rows are left untouched. -/
def runDue (send : MsgRec → Bool) (markFault : Nat → Bool) :
    List MsgRec → List MsgRec → TickResult
  | [], tbl => ⟨[], tbl⟩
  | m :: rest, tbl =>
    if markFault m.id then ⟨[m.id], tbl⟩
    else
      let r := runDue send markFault rest
        (setStatus tbl m.id (if send m then .sent else .failed))
      ⟨m.id :: r.attempts, r.table⟩

/-- One scheduler tick (checkAndSendReminders / checkAndSendThankYous) on
a message table: if the due query throws (`queryFault`) the tick does
nothing; otherwise each due row is processed in order. -/
def tick (send : MsgRec → Bool) (markFault : Nat → Bool) (queryFault : Bool)
    (apps : List Appointment) (now : Int) (tbl : List MsgRec) : TickResult :=
  if queryFault then ⟨[], tbl⟩
  else runDue send markFault (dueMessages apps now tbl) tbl

/-- The checkAndSendThankYous job applied to the store. -/
def checkAndSendThankYous (send : MsgRec → Bool) (markFault : Nat → Bool)
    (queryFault : Bool) (now : Int) (db : Db) : Db :=
  { db with thank_you_messages :=
      (tick send markFault queryFault db.appointments now db.thank_you_messages).table }

/-- The checkAndSendReminders job applied to the store. -/
def checkAndSendReminders (send : MsgRec → Bool) (markFault : Nat → Bool)
    (queryFault : Bool) (now : Int) (db : Db) : Db :=
  { db with reminders :=
      (tick send markFault queryFault db.appointments now db.reminders).table }

/-- The environment of one tick of a scheduler loop: the Notifier
outcomes, which status updates throw, whether the due query throws, and
the current UTC instant. -/
structure TickSpec where
  send : MsgRec → Bool
  markFault : Nat → Bool
  queryFault : Bool
  now : Int

/-- A sequence of scheduler ticks over a fixed appointments table. -/
def runTicks (apps : List Appointment) : List TickSpec → List MsgRec → List MsgRec
  | [], tbl => tbl
  | t :: ts, tbl =>
    runTicks apps ts (tick t.send t.markFault t.queryFault apps t.now tbl).table

/-- All Notifier attempts made across a sequence of scheduler ticks. -/
def runTicksAttempts (apps : List Appointment) : List TickSpec → List MsgRec → List Nat
  | [], _ => []
  | t :: ts, tbl =>
    (tick t.send t.markFault t.queryFault apps t.now tbl).attempts ++
      runTicksAttempts apps ts (tick t.send t.markFault t.queryFault apps t.now tbl).table

/-- Outcome of the protected reminder / thank-you routes. -/
inductive ApiOutcome where
  | invalidInput
  | notFound
  | ok
  deriving DecidableEq, Repr

/-- The expression `message || null`. -/
def jsOrNull : Option String → Option String
  | some s => if s == "" then none else some s
  | none => none

/-- getAppointmentAndVerifyOwner: SELECT * FROM appointments WHERE id = ?
AND admin_id = ?. -/
def findAppointment (db : Db) (appointmentId adminId : Nat) : Option Appointment :=
  db.appointments.find? (fun a => a.id == appointmentId && a.admin_id == adminId)

/-- Request body of the reminder create / update routes. -/
structure ReminderBody where
  reminder_time : Option String
  client_timezone : Option String
  message : Option String
  deriving DecidableEq, Repr

/-- POST /api/appointments/:appointmentId/reminders: require a truthy
reminder_time, resolve the appointment, convert the zoned time, reject a
reminder instant >= the appointment instant, insert a pending reminder. -/
def createReminder (parseNaive zoneOffset : String → Option Int) (defaultTz : String)
    (appointmentId adminId : Nat) (body : ReminderBody) (db : Db) : ApiOutcome × Db :=
  if !(isTruthy body.reminder_time) then (.invalidInput, db)
  else
    match findAppointment db appointmentId adminId with
    | none => (.notFound, db)
    | some appointment =>
      match fromZonedTime parseNaive zoneOffset (body.reminder_time.getD "")
          (sourceTimezone body.client_timezone defaultTz) with
      | none => (.invalidInput, db)
      | some utcReminderTime =>
        if appointment.appointment_date ≤ utcReminderTime then (.invalidInput, db)
        else
          (.ok, { db with reminders := db.reminders ++
            [⟨nextMsgId db.reminders, appointmentId, utcReminderTime,
              jsOrNull body.message, .pending⟩] })

/-- The SET clause built by the update routes: a new send-time when one
was supplied, a new message when the message key was present. -/
def updMsgRow (t? : Option Int) (msg? : Option String) (r : MsgRec) : MsgRec :=
  { r with
      send_time := t?.getD r.send_time,
      message := match msg? with | some s => some s | none => r.message }

/-- UPDATE reminders SET ... WHERE id = ? AND appointment_id = ?; zero
affected rows is reported as 404. -/
def reminderRowUpdate (db : Db) (appointmentId reminderId : Nat)
    (t? : Option Int) (msg? : Option String) : ApiOutcome × Db :=
  if db.reminders.any (fun r => r.id == reminderId && r.appointment_id == appointmentId) then
    (.ok, { db with reminders := db.reminders.map (fun r =>
      if r.id == reminderId && r.appointment_id == appointmentId then
        updMsgRow t? msg? r
      else r) })
  else (.notFound, db)

/-- PUT /api/appointments/:appointmentId/reminders/:reminderId. -/
def updateReminder (parseNaive zoneOffset : String → Option Int) (defaultTz : String)
    (appointmentId reminderId adminId : Nat) (body : ReminderBody) (db : Db) :
    ApiOutcome × Db :=
  if !(isTruthy body.reminder_time) && body.message == none then (.invalidInput, db)
  else
    match findAppointment db appointmentId adminId with
    | none => (.notFound, db)
    | some appointment =>
      if isTruthy body.reminder_time then
        match fromZonedTime parseNaive zoneOffset (body.reminder_time.getD "")
            (sourceTimezone body.client_timezone defaultTz) with
        | none => (.invalidInput, db)
        | some utcReminderTime =>
          if appointment.appointment_date ≤ utcReminderTime then (.invalidInput, db)
          else reminderRowUpdate db appointmentId reminderId (some utcReminderTime) body.message
      else reminderRowUpdate db appointmentId reminderId none body.message

/-- Request body of the thank-you update route. -/
structure ThankYouBody where
  message : Option String
  send_time : Option String
  client_timezone : Option String
  deriving DecidableEq, Repr

/-- UPDATE thank_you_messages SET ... WHERE appointment_id = ?; zero
affected rows is reported as 404. -/
def thankYouRowUpdate (db : Db) (appointmentId : Nat)
    (t? : Option Int) (msg? : Option String) : ApiOutcome × Db :=
  if db.thank_you_messages.any (fun r => r.appointment_id == appointmentId) then
    (.ok, { db with thank_you_messages := db.thank_you_messages.map (fun r =>
      if r.appointment_id == appointmentId then updMsgRow t? msg? r else r) })
  else (.notFound, db)

/-- PUT /api/appointments/:appointmentId/thank-you: require message or a
truthy send_time, resolve the appointment, convert the zoned time, reject
a new send instant <= the appointment instant, apply the update. -/
def updateThankYou (parseNaive zoneOffset : String → Option Int) (defaultTz : String)
    (appointmentId adminId : Nat) (body : ThankYouBody) (db : Db) : ApiOutcome × Db :=
  if body.message == none && !(isTruthy body.send_time) then (.invalidInput, db)
  else
    match findAppointment db appointmentId adminId with
    | none => (.notFound, db)
    | some appointment =>
      if isTruthy body.send_time then
        match fromZonedTime parseNaive zoneOffset (body.send_time.getD "")
            (sourceTimezone body.client_timezone defaultTz) with
        | none => (.invalidInput, db)
        | some utcSendTime =>
          if utcSendTime ≤ appointment.appointment_date then (.invalidInput, db)
          else thankYouRowUpdate db appointmentId (some utcSendTime) body.message
      else thankYouRowUpdate db appointmentId none body.message

/-- Outcome of the public booked-slots route. -/
inductive SlotsOutcome where
  | ok (timezone : String) (bookedSlots : List Int)
  | serverFault
  deriving DecidableEq, Repr

/-- SELECT appointment_date FROM appointments WHERE admin_id = ? AND
slug_id = ?. -/
def pageAppointments (page : PageContext) (db : Db) : List Appointment :=
  db.appointments.filter (fun a => a.admin_id == page.admin_id && a.slug_id == some page.slug_id)

/-- GET /:adminSlug/:bookingSlug/booked-slots after page resolution: the
page's appointments ordered by date, each formatted by formatInTimeZone in
the configured DEFAULT_TIMEZONE (wall-clock value utc + offset); an
unknown default zone makes formatInTimeZone throw on the first row, which
the handler reports as a 500. -/
def bookedSlots (zoneOffset : String → Option Int) (defaultTz : String)
    (page : PageContext) (db : Db) : SlotsOutcome :=
  match List.insertionSort (fun a b => a.appointment_date ≤ b.appointment_date)
      (pageAppointments page db), zoneOffset defaultTz with
  | [], _ => .ok defaultTz []
  | _, none => .serverFault
  | rows, some off => .ok defaultTz (rows.map (fun a => a.appointment_date + off))

/-- The C1 invariant on the appointments table: no two rows share the same
admin and the same UTC instant. -/
def noDoubleBooking : List Appointment → Bool
  | [] => true
  | a :: rest =>
    rest.all (fun b => !(a.admin_id == b.admin_id && a.appointment_date == b.appointment_date))
      && noDoubleBooking rest

def adminSlotUnique (db : Db) : Bool := noDoubleBooking db.appointments

/-- Marking a list of rows in order: the UPDATE statements a tick issues
for the given rows, applied to the table. -/
def applyMarks (send : MsgRec → Bool) (l : List MsgRec) (tbl : List MsgRec) : List MsgRec :=
  l.foldl (fun t m => setStatus t m.id (if send m then .sent else .failed)) tbl

/-- Look a message up by id (SELECT ... WHERE id = ?). -/
def findMsg (tbl : List MsgRec) (i : Nat) : Option MsgRec :=
  tbl.find? (fun m => m.id == i)

theorem setStatus_map_id (tbl : List MsgRec) (i : Nat) (st : MsgStatus) :
    (setStatus tbl i st).map (·.id) = tbl.map (·.id) := by
  unfold setStatus
  rw [List.map_map]
  refine List.map_congr_left ?_
  intro m _
  simp only [Function.comp_apply]
  split <;> rfl

theorem findMsg_setStatus_ne (tbl : List MsgRec) (i j : Nat) (st : MsgStatus) (h : i ≠ j) :
    findMsg (setStatus tbl j st) i = findMsg tbl i := by
  induction tbl with
  | nil => rfl
  | cons m rest ih =>
    by_cases hj : m.id == j
    · have hji : (m.id == i) = false := by
        simp only [beq_iff_eq] at hj
        simp only [beq_eq_false_iff_ne, ne_eq]
        omega
      simp [findMsg, setStatus, List.find?, hj, hji] at ih ⊢
      exact ih
    · by_cases hi : m.id == i <;>
        simp [findMsg, setStatus, List.find?, hj, hi] at ih ⊢
      exact ih

theorem findMsg_setStatus_self (tbl : List MsgRec) (i : Nat) (st : MsgStatus) (m : MsgRec)
    (h : findMsg tbl i = some m) :
    findMsg (setStatus tbl i st) i = some { m with status := st } := by
  induction tbl with
  | nil => simp [findMsg] at h
  | cons x rest ih =>
    by_cases hx : x.id == i
    · have hxm : x = m := by
        simpa [findMsg, List.find?, hx] using h
      subst hxm
      simp [findMsg, setStatus, List.find?, hx]
    · simp [findMsg, setStatus, List.find?, hx] at h ih ⊢
      exact ih h

theorem findMsg_mem (tbl : List MsgRec) (i : Nat) (m : MsgRec)
    (h : findMsg tbl i = some m) : m ∈ tbl ∧ m.id = i := by
  refine ⟨List.mem_of_find?_eq_some h, ?_⟩
  have := List.find?_some h
  simpa [beq_iff_eq] using this

theorem findMsg_of_mem_nodup (tbl : List MsgRec) (m : MsgRec)
    (hN : (tbl.map (·.id)).Nodup) (hm : m ∈ tbl) : findMsg tbl m.id = some m := by
  induction tbl with
  | nil => cases hm
  | cons x rest ih =>
    simp only [List.map_cons, List.nodup_cons] at hN
    rcases List.mem_cons.1 hm with rfl | hm'
    · simp [findMsg, List.find?]
    · have hx : (x.id == m.id) = false := by
        simp only [beq_eq_false_iff_ne, ne_eq]
        intro hEq
        exact hN.1 (hEq ▸ List.mem_map.2 ⟨m, hm', rfl⟩)
      simp only [findMsg, List.find?, hx]
      exact ih hN.2 hm'

theorem applyMarks_map_id (send : MsgRec → Bool) (l : List MsgRec) (tbl : List MsgRec) :
    (applyMarks send l tbl).map (·.id) = tbl.map (·.id) := by
  induction l generalizing tbl with
  | nil => rfl
  | cons m rest ih =>
    simpa [applyMarks] using
      (ih (setStatus tbl m.id (if send m then .sent else .failed))).trans
        (setStatus_map_id tbl m.id _)

theorem findMsg_applyMarks_ne (send : MsgRec → Bool) (l : List MsgRec) (tbl : List MsgRec)
    (i : Nat) (h : ∀ m ∈ l, m.id ≠ i) :
    findMsg (applyMarks send l tbl) i = findMsg tbl i := by
  induction l generalizing tbl with
  | nil => rfl
  | cons m rest ih =>
    have hstep := findMsg_setStatus_ne tbl i m.id (if send m then MsgStatus.sent else .failed)
      (fun hEq => h m (List.mem_cons_self m rest) hEq.symm)
    simpa [applyMarks] using
      (ih _ (fun x hx => h x (List.mem_cons_of_mem m hx))).trans hstep

theorem mem_dueMessages (apps : List Appointment) (now : Int) (tbl : List MsgRec)
    (m : MsgRec) :
    m ∈ dueMessages apps now tbl ↔
      m ∈ tbl ∧ m.status = .pending ∧ m.send_time ≤ now ∧
        ∃ a ∈ apps, a.id = m.appointment_id := by
  simp [dueMessages, List.mem_filter, List.any_eq_true, and_assoc]

theorem runDue_no_fault (send : MsgRec → Bool) (mf : Nat → Bool)
    (h : ∀ j, mf j = false) (l : List MsgRec) (tbl : List MsgRec) :
    runDue send mf l tbl = ⟨l.map (·.id), applyMarks send l tbl⟩ := by
  induction l generalizing tbl with
  | nil => rfl
  | cons m rest ih =>
    simp [runDue, h m.id, ih, applyMarks, List.foldl]

theorem runDue_attempts_mem (send : MsgRec → Bool) (mf : Nat → Bool)
    (l : List MsgRec) (tbl : List MsgRec) (i : Nat)
    (h : i ∈ (runDue send mf l tbl).attempts) : ∃ m ∈ l, m.id = i := by
  induction l generalizing tbl with
  | nil => simp [runDue] at h
  | cons m rest ih =>
    by_cases hf : mf m.id
    · simp [runDue, hf] at h
      exact ⟨m, List.mem_cons_self m rest, h.symm⟩
    · simp [runDue, hf] at h
      rcases h with rfl | h
      · exact ⟨m, List.mem_cons_self m rest, rfl⟩
      · obtain ⟨x, hx, hxi⟩ := ih _ h
        exact ⟨x, List.mem_cons_of_mem m hx, hxi⟩

theorem runDue_table_ne (send : MsgRec → Bool) (mf : Nat → Bool)
    (l : List MsgRec) (tbl : List MsgRec) (i : Nat)
    (h : ∀ m ∈ l, m.id ≠ i) :
    findMsg (runDue send mf l tbl).table i = findMsg tbl i := by
  induction l generalizing tbl with
  | nil => rfl
  | cons m rest ih =>
    by_cases hf : mf m.id
    · simp [runDue, hf]
    · simp only [runDue]
      rw [if_neg hf]
      refine (ih _ (fun x hx => h x (List.mem_cons_of_mem m hx))).trans ?_
      exact findMsg_setStatus_ne tbl i m.id _
        (fun hEq => h m (List.mem_cons_self m rest) hEq.symm)

theorem runDue_map_id (send : MsgRec → Bool) (mf : Nat → Bool)
    (l : List MsgRec) (tbl : List MsgRec) :
    (runDue send mf l tbl).table.map (·.id) = tbl.map (·.id) := by
  induction l generalizing tbl with
  | nil => rfl
  | cons m rest ih =>
    by_cases hf : mf m.id
    · simp [runDue, hf]
    · simp only [runDue]
      rw [if_neg hf]
      exact (ih _).trans (setStatus_map_id tbl m.id _)

theorem tick_map_id (send : MsgRec → Bool) (mf : Nat → Bool) (qf : Bool)
    (apps : List Appointment) (now : Int) (tbl : List MsgRec) :
    (tick send mf qf apps now tbl).table.map (·.id) = tbl.map (·.id) := by
  cases qf
  · simpa [tick] using runDue_map_id send mf (dueMessages apps now tbl) tbl
  · simp [tick]

theorem tick_untouched (send : MsgRec → Bool) (mf : Nat → Bool) (qf : Bool)
    (apps : List Appointment) (now : Int) (tbl : List MsgRec) (i : Nat) (m : MsgRec)
    (hN : (tbl.map (·.id)).Nodup) (hm : findMsg tbl i = some m)
    (hcond : m.status ≠ .pending ∨ ∀ a ∈ apps, a.id ≠ m.appointment_id) :
    findMsg (tick send mf qf apps now tbl).table i = some m ∧
      i ∉ (tick send mf qf apps now tbl).attempts := by
  obtain ⟨hmem, hid⟩ := findMsg_mem tbl i m hm
  have hdue : ∀ d ∈ dueMessages apps now tbl, d.id ≠ i := by
    intro d hd hdi
    obtain ⟨hdt, hdp, _, a, ha, hai⟩ := (mem_dueMessages apps now tbl d).1 hd
    have : d = m := List.inj_on_of_nodup_map hN hdt hmem (by rw [hdi, hid])
    subst this
    rcases hcond with hc | hc
    · exact hc hdp
    · exact hc a ha hai
  cases qf
  · constructor
    · simpa [tick] using (runDue_table_ne send mf (dueMessages apps now tbl) tbl i hdue).trans hm
    · intro hin
      simp only [tick, Bool.false_eq_true, if_false] at hin
      obtain ⟨d, hd, hdi⟩ := runDue_attempts_mem send mf (dueMessages apps now tbl) tbl i hin
      exact hdue d hd hdi
  · exact ⟨by simpa [tick] using hm, by simp [tick]⟩

theorem runTicks_untouched (apps : List Appointment) (i : Nat) (m : MsgRec)
    (hcond : m.status ≠ .pending ∨ ∀ a ∈ apps, a.id ≠ m.appointment_id)
    (ts : List TickSpec) :
    ∀ (tbl : List MsgRec), (tbl.map (·.id)).Nodup → findMsg tbl i = some m →
      findMsg (runTicks apps ts tbl) i = some m ∧ i ∉ runTicksAttempts apps ts tbl := by
  induction ts with
  | nil =>
    intro tbl _ hm
    exact ⟨hm, by simp [runTicksAttempts]⟩
  | cons t ts ih =>
    intro tbl hN hm
    obtain ⟨h1, h2⟩ := tick_untouched t.send t.markFault t.queryFault apps t.now tbl i m hN hm hcond
    have hN' : (((tick t.send t.markFault t.queryFault apps t.now tbl).table).map (·.id)).Nodup := by
      rw [tick_map_id]; exact hN
    obtain ⟨h3, h4⟩ := ih _ hN' h1
    refine ⟨h3, ?_⟩
    simp only [runTicksAttempts, List.mem_append]
    exact fun hc => hc.elim h2 h4

theorem runDue_cut (send : MsgRec → Bool) (mf : Nat → Bool) :
    ∀ (l : List MsgRec) (k : Nat) (d : MsgRec) (tbl : List MsgRec),
      l[k]? = some d → mf d.id = true →
      (∀ j, j < k → ∀ e, l[j]? = some e → mf e.id = false) →
      runDue send mf l tbl =
        ⟨(l.take (k + 1)).map (·.id), applyMarks send (l.take k) tbl⟩ := by
  intro l
  induction l with
  | nil =>
    intro k d tbl hk
    simp at hk
  | cons m rest ih =>
    intro k d tbl hk hd hcut
    cases k with
    | zero =>
      have hmd : m = d := by simpa using hk
      subst hmd
      simp [runDue, hd, applyMarks]
    | succ k =>
      have hm : mf m.id = false := hcut 0 (Nat.succ_pos k) m (by simp)
      have hcut' : ∀ j, j < k → ∀ e, rest[j]? = some e → mf e.id = false := by
        intro j hj e he
        exact hcut (j + 1) (Nat.succ_lt_succ hj) e (by simpa using he)
      simp only [runDue]
      rw [if_neg (by simp [hm])]
      rw [ih k d _ (by simpa using hk) hd hcut']
      simp [applyMarks]

theorem hasConflict_false (db : Db) (adminId : Nat) (t : Int)
    (h : hasConflict db adminId t = false) :
    ∀ a ∈ db.appointments, ¬(a.appointment_date = t ∧ a.admin_id = adminId) := by
  intro a ha hc
  have : hasConflict db adminId t = true := by
    simp only [hasConflict, List.any_eq_true]
    exact ⟨a, ha, by simp [hc.1, hc.2]⟩
  rw [h] at this
  cases this

theorem noDoubleBooking_append (l : List Appointment) (a : Appointment)
    (hl : noDoubleBooking l = true)
    (ha : ∀ b ∈ l, ¬(b.admin_id = a.admin_id ∧ b.appointment_date = a.appointment_date)) :
    noDoubleBooking (l ++ [a]) = true := by
  induction l with
  | nil => simp [noDoubleBooking]
  | cons x rest ih =>
    simp only [noDoubleBooking, Bool.and_eq_true, List.all_eq_true] at hl
    simp only [List.cons_append, noDoubleBooking, Bool.and_eq_true, List.all_eq_true]
    refine ⟨?_, ih hl.2 (fun b hb => ha b (List.mem_cons_of_mem x hb))⟩
    intro b hb
    rcases List.mem_append.1 hb with hb | hb
    · exact hl.1 b hb
    · have hba : b = a := by simpa using hb
      subst hba
      have hx := ha x (List.mem_cons_self x rest)
      simp only [Bool.not_eq_eq_eq_not, Bool.not_true, Bool.and_eq_false_iff]
      by_cases h1 : x.admin_id = b.admin_id
      · right
        simp only [beq_eq_false_iff_ne, ne_eq]
        intro h2
        exact hx ⟨h1, h2⟩
      · left
        simp only [beq_eq_false_iff_ne, ne_eq]
        exact h1

theorem findMsg_applyMarks_of_mem (send : MsgRec → Bool) (l tbl : List MsgRec) (m : MsgRec)
    (hN : (tbl.map (·.id)).Nodup) (hsub : l.Sublist tbl) (hm : m ∈ l) :
    findMsg (applyMarks send l tbl) m.id =
      some { m with status := if send m then .sent else .failed } := by
  have hmt : m ∈ tbl := hsub.subset hm
  obtain ⟨l1, l2, rfl⟩ := List.append_of_mem hm
  have hlN : ((l1 ++ m :: l2).map (·.id)).Nodup :=
    List.Nodup.sublist (List.Sublist.map (·.id) hsub) hN
  rw [List.map_append, List.map_cons, List.nodup_append] at hlN
  obtain ⟨h1N, h2N, hdisj⟩ := hlN
  have hml2 : ∀ x ∈ l2, x.id ≠ m.id := by
    intro x hx hEq
    exact (List.nodup_cons.1 h2N).1 (List.mem_map.2 ⟨x, hx, hEq⟩)
  have hml1 : ∀ x ∈ l1, x.id ≠ m.id := by
    intro x hx hEq
    exact hdisj (List.mem_map.2 ⟨x, hx, hEq⟩) (List.mem_cons_self _ _)
  have hsplitmark : applyMarks send (l1 ++ m :: l2) tbl =
      applyMarks send l2 (setStatus (applyMarks send l1 tbl) m.id
        (if send m then .sent else .failed)) := by
    simp [applyMarks, List.foldl_append, List.foldl]
  have hbase : findMsg (applyMarks send l1 tbl) m.id = some m := by
    rw [findMsg_applyMarks_ne send l1 tbl m.id hml1]
    exact findMsg_of_mem_nodup tbl m hN hmt
  rw [hsplitmark, findMsg_applyMarks_ne send l2 _ m.id hml2]
  exact findMsg_setStatus_self _ m.id _ m hbase

theorem dueMessages_sublist (apps : List Appointment) (now : Int) (tbl : List MsgRec) :
    (dueMessages apps now tbl).Sublist tbl := by
  unfold dueMessages
  exact List.filter_sublist tbl

/-- Claim C3 counterexample: a thank-you row that is pending and due
(send-time 0, current instant 100) but whose appointment no longer exists
(the appointments table is empty, as after a cancellation) is not selected
by the tick: no delivery is attempted and its status stays pending,
contradicting the claim that every pending due ScheduledMessage row is
selected and transitions to sent or failed. -/
theorem tick_orphan_not_selected_cex :
    (tick (fun _ => true) (fun _ => false) false [] 100
        [⟨1, 5, 0, none, .pending⟩]).attempts = [] ∧
    findMsg (tick (fun _ => true) (fun _ => false) false [] 100
        [⟨1, 5, 0, none, .pending⟩]).table 1 = some ⟨1, 5, 0, none, .pending⟩ := by
  constructor <;> rfl

/-- Claim C3 (amended): for every ScheduledMessage row with status pending,
send-time at or before the current UTC instant, and whose owning
appointment still exists in the active appointments table, a fault-free
scheduler tick of the matching kind attempts delivery exactly once, after
which its status is sent if the Notifier call succeeded and failed
otherwise; afterwards no tick of any subsequent sequence ever attempts it
again or changes it (terminal statuses are never retried). -/
theorem scheduler_due_once_amended
    (send : MsgRec → Bool) (apps : List Appointment) (now : Int)
    (tbl : List MsgRec) (m : MsgRec)
    (hN : (tbl.map (·.id)).Nodup)
    (hm : m ∈ tbl) (hp : m.status = .pending) (hd : m.send_time ≤ now)
    (ha : ∃ a ∈ apps, a.id = m.appointment_id) :
    (tick send (fun _ => false) false apps now tbl).attempts.count m.id = 1 ∧
    findMsg (tick send (fun _ => false) false apps now tbl).table m.id =
      some { m with status := if send m then .sent else .failed } ∧
    ∀ ts : List TickSpec,
      m.id ∉ runTicksAttempts apps ts (tick send (fun _ => false) false apps now tbl).table ∧
      findMsg (runTicks apps ts (tick send (fun _ => false) false apps now tbl).table) m.id =
        some { m with status := if send m then .sent else .failed } := by
  have hdue : m ∈ dueMessages apps now tbl :=
    (mem_dueMessages apps now tbl m).2 ⟨hm, hp, hd, ha⟩
  have htick : tick send (fun _ => false) false apps now tbl =
      ⟨(dueMessages apps now tbl).map (·.id),
        applyMarks send (dueMessages apps now tbl) tbl⟩ := by
    simp only [tick, Bool.false_eq_true, if_false]
    exact runDue_no_fault send (fun _ => false) (fun _ => rfl) _ tbl
  have hsub := dueMessages_sublist apps now tbl
  have hdN : ((dueMessages apps now tbl).map (·.id)).Nodup :=
    List.Nodup.sublist (List.Sublist.map (·.id) hsub) hN
  have hcount : ((dueMessages apps now tbl).map (·.id)).count m.id = 1 :=
    List.count_eq_one_of_mem hdN (List.mem_map.2 ⟨m, hdue, rfl⟩)
  have hfind : findMsg (applyMarks send (dueMessages apps now tbl) tbl) m.id =
      some { m with status := if send m then .sent else .failed } :=
    findMsg_applyMarks_of_mem send _ tbl m hN hsub hdue
  have hstat : ({ m with status := if send m then MsgStatus.sent else .failed } : MsgRec).status
      ≠ .pending := by
    by_cases h : send m <;> simp [h]
  have hN' : ((applyMarks send (dueMessages apps now tbl) tbl).map (·.id)).Nodup := by
    rw [applyMarks_map_id]
    exact hN
  refine ⟨?_, ?_, ?_⟩
  · rw [htick]
    exact hcount
  · rw [htick]
    exact hfind
  · intro ts
    rw [htick]
    have := runTicks_untouched apps m.id
      { m with status := if send m then .sent else .failed } (Or.inl hstat) ts
      (applyMarks send (dueMessages apps now tbl) tbl) hN' hfind
    exact ⟨this.2, this.1⟩

theorem scheduler_due_once_amended_witness :
    ((⟨1, 2, 10, none, .pending⟩ : MsgRec) ∈ ([⟨1, 2, 10, none, .pending⟩] : List MsgRec)) ∧
    (tick (fun _ => false) (fun _ => false) false [⟨2, 9, none, "c", "e", 60, none, 0⟩] 50
        [⟨1, 2, 10, none, .pending⟩]).attempts.count 1 = 1 ∧
    findMsg (tick (fun _ => false) (fun _ => false) false
        [⟨2, 9, none, "c", "e", 60, none, 0⟩] 50 [⟨1, 2, 10, none, .pending⟩]).table 1 =
      some ⟨1, 2, 10, none, .failed⟩ := by
  have h := scheduler_due_once_amended (fun _ => false)
    [⟨2, 9, none, "c", "e", 60, none, 0⟩] 50 [⟨1, 2, 10, none, .pending⟩]
    ⟨1, 2, 10, none, .pending⟩ (by decide) (by decide) rfl (by decide)
    ⟨⟨2, 9, none, "c", "e", 60, none, 0⟩, by decide, rfl⟩
  exact ⟨by decide, h.1, h.2.1⟩

/-- Claim C6 counterexample: two pending due rows (ids 10 and 11, both
with live appointments); the status UPDATE for row 10 throws.  Because
the single try/catch wraps the whole per-row loop, the tick ends there:
row 11 is never attempted and stays pending, and even row 10 is left
unmarked — contradicting the claim that an error while marking a single
row is isolated to that row and every remaining due row is still
attempted and marked in the same tick. -/
theorem tick_mark_fault_aborts_cex :
    tick (fun _ => true) (fun i => i == 10) false
        [⟨1, 1, none, "a", "a@x", 0, none, 0⟩, ⟨2, 1, none, "b", "b@x", 5, none, 0⟩]
        100
        [⟨10, 1, 0, none, .pending⟩, ⟨11, 2, 0, none, .pending⟩] =
      ⟨[10], [⟨10, 1, 0, none, .pending⟩, ⟨11, 2, 0, none, .pending⟩]⟩ ∧
    (11 : Nat) ∉ (tick (fun _ => true) (fun i => i == 10) false
        [⟨1, 1, none, "a", "a@x", 0, none, 0⟩, ⟨2, 1, none, "b", "b@x", 5, none, 0⟩]
        100
        [⟨10, 1, 0, none, .pending⟩, ⟨11, 2, 0, none, .pending⟩]).attempts := by
  constructor
  · rfl
  · decide

/-- Claim C6 (amended): within one scheduler tick, an error querying the
due set aborts the whole tick with no changes; a Notifier send failure is
isolated to its row (the row is marked failed and every remaining due row
is still attempted and marked); but a fault while marking (the status
UPDATE throwing) aborts the remainder of the tick: rows processed before
the faulting row keep their new statuses, while the faulting row and all
later due rows are left untouched (still pending for the next tick). -/
theorem tick_error_isolation_amended
    (send : MsgRec → Bool) (mf : Nat → Bool) (apps : List Appointment)
    (now : Int) (tbl : List MsgRec)
    (hN : (tbl.map (·.id)).Nodup) :
    tick send mf true apps now tbl = ⟨[], tbl⟩ ∧
    ((∀ i, mf i = false) → ∀ m ∈ dueMessages apps now tbl,
      m.id ∈ (tick send mf false apps now tbl).attempts ∧
      findMsg (tick send mf false apps now tbl).table m.id =
        some { m with status := if send m then .sent else .failed }) ∧
    (∀ k d, (dueMessages apps now tbl)[k]? = some d → mf d.id = true →
      (∀ j, j < k → ∀ e, (dueMessages apps now tbl)[j]? = some e → mf e.id = false) →
      tick send mf false apps now tbl =
        ⟨((dueMessages apps now tbl).take (k + 1)).map (·.id),
          applyMarks send ((dueMessages apps now tbl).take k) tbl⟩) := by
  refine ⟨by simp [tick], ?_, ?_⟩
  · intro hmf m hdue
    have htick : tick send mf false apps now tbl =
        ⟨(dueMessages apps now tbl).map (·.id),
          applyMarks send (dueMessages apps now tbl) tbl⟩ := by
      simp only [tick, Bool.false_eq_true, if_false]
      exact runDue_no_fault send mf hmf _ tbl
    rw [htick]
    exact ⟨List.mem_map.2 ⟨m, hdue, rfl⟩,
      findMsg_applyMarks_of_mem send _ tbl m hN (dueMessages_sublist apps now tbl) hdue⟩
  · intro k d hk hd hcut
    simp only [tick, Bool.false_eq_true, if_false]
    exact runDue_cut send mf _ k d tbl hk hd hcut

theorem tick_error_isolation_amended_witness :
    ((([⟨1, 1, 0, none, .pending⟩] : List MsgRec).map (·.id)).Nodup) ∧
    tick (fun _ => true) (fun _ => false) true [] 0 [⟨1, 1, 0, none, .pending⟩] =
      ⟨[], [⟨1, 1, 0, none, .pending⟩]⟩ :=
  ⟨by decide,
    (tick_error_isolation_amended (fun _ => true) (fun _ => false) [] 0
      [⟨1, 1, 0, none, .pending⟩] (by decide)).1⟩

/-- Claim C10: a successful cancellation leaves the thank_you_messages and
reminders tables untouched, removes every active appointment with the
cancelled id, and afterwards a pending ScheduledMessage row referencing
that id is never selected by any sequence of scheduler ticks of either
loop (the due query joins against the active appointments table): it is
never attempted, never marked, and remains pending forever. -/
theorem cancelled_orphan_messages_stay_pending
    (aid adminId : Nat) (now : Int) (db db2 : Db) (tbl : List MsgRec) (m : MsgRec)
    (hc : cancelAppointment aid adminId now db = (.success, db2))
    (htbl : tbl = db2.thank_you_messages ∨ tbl = db2.reminders)
    (hm : m ∈ tbl) (hp : m.status = .pending) (hid : m.appointment_id = aid)
    (hN : (tbl.map (·.id)).Nodup) :
    db2.thank_you_messages = db.thank_you_messages ∧
    db2.reminders = db.reminders ∧
    (∀ a ∈ db2.appointments, a.id ≠ aid) ∧
    ∀ ts : List TickSpec,
      m.id ∉ runTicksAttempts db2.appointments ts tbl ∧
      findMsg (runTicks db2.appointments ts tbl) m.id = some m ∧
      m.status = .pending := by
  unfold cancelAppointment at hc
  cases hfind : db.appointments.find? (fun a => a.id == aid && a.admin_id == adminId) with
  | none =>
    rw [hfind] at hc
    cases hc
  | some a0 =>
    rw [hfind] at hc
    simp only [Prod.mk.injEq] at hc
    obtain ⟨-, h2⟩ := hc
    subst h2
    have happ : ∀ a ∈ db.appointments.filter (fun x => !(x.id == aid)), a.id ≠ aid := by
      intro a ha
      have := (List.mem_filter.1 ha).2
      simpa using this
    refine ⟨rfl, rfl, happ, ?_⟩
    intro ts
    have horphan : ∀ a ∈ db.appointments.filter (fun x => !(x.id == aid)),
        a.id ≠ m.appointment_id := by
      intro a ha
      rw [hid]
      exact happ a ha
    have hbase : findMsg tbl m.id = some m := findMsg_of_mem_nodup tbl m hN hm
    have := runTicks_untouched (db.appointments.filter (fun x => !(x.id == aid)))
      m.id m (Or.inr horphan) ts tbl hN hbase
    exact ⟨this.2, this.1, hp⟩

/-- Store used by the C10 witness: one appointment (id 1) with a pending
thank-you row (id 7) attached. -/
def c10Db : Db :=
  ⟨[⟨1, 1, none, "c", "e", 50, none, 0⟩], [], [], [⟨7, 1, 1490, none, .pending⟩], []⟩

def c10Db2 : Db := (cancelAppointment 1 1 60 c10Db).2

theorem cancelled_orphan_messages_stay_pending_witness :
    cancelAppointment 1 1 60 c10Db = (.success, c10Db2) ∧
    c10Db2.thank_you_messages = c10Db.thank_you_messages ∧
    (7 : Nat) ∉ runTicksAttempts c10Db2.appointments [] c10Db2.thank_you_messages ∧
    findMsg (runTicks c10Db2.appointments [] c10Db2.thank_you_messages) 7 =
      some ⟨7, 1, 1490, none, .pending⟩ := by
  have h := cancelled_orphan_messages_stay_pending 1 1 60 c10Db c10Db2
    c10Db2.thank_you_messages ⟨7, 1, 1490, none, .pending⟩ rfl (Or.inl rfl)
    (by decide) rfl rfl (by decide)
  exact ⟨rfl, h.1, (h.2.2.2 []).1, (h.2.2.2 []).2.1⟩

theorem book_valid_unfold (parseNaive zoneOffset : String → Option Int) (defaultTz : String)
    (page : PageContext) (body : BookBody) (faults : BookStep → Bool)
    (now : Int) (db : Db) (utcDate : Int)
    (h1 : isTruthy body.client_name = true) (h2 : isTruthy body.client_email = true)
    (h3 : isTruthy body.appointment_date = true)
    (hp : fromZonedTime parseNaive zoneOffset (body.appointment_date.getD "")
      (sourceTimezone body.client_timezone defaultTz) = some utcDate) :
    book parseNaive zoneOffset defaultTz page body faults now db =
      (if faults .conflictQuery then (.serverFault, db)
      else if hasConflict db page.admin_id utcDate then (.slotConflict, db)
      else if faults .insertAppt then (.serverFault, db)
      else if !(customRows page body.custom_fields (nextApptId db)).isEmpty
          && faults .insertCustomData then (.serverFault, db)
      else if faults .insertThankYou then (.serverFault, db)
      else if faults .commit then (.serverFault, db)
      else
        (.created (nextApptId db),
          { db with
              appointments := db.appointments ++
                [⟨nextApptId db, page.admin_id, some page.slug_id,
                  body.client_name.getD "", body.client_email.getD "", utcDate,
                  body.details, now⟩],
              appointment_custom_data := db.appointment_custom_data ++
                customRows page body.custom_fields (nextApptId db),
              thank_you_messages := db.thank_you_messages ++
                [⟨nextMsgId db.thank_you_messages, nextApptId db,
                  utcDate + 1440, none, .pending⟩] })) := by
  unfold book
  rw [h1, h2, h3, hp]
  simp

/-- Claim C1: for a well-formed booking request (fields present, zoned
time parses) with a fault-free store, if a non-cancelled appointment for
the same admin already exists at the requested UTC instant — through any
of the admin's pages — the transaction aborts with SlotConflict and the
store is unchanged; otherwise exactly one appointment is inserted, at
that instant for that admin; and the per-admin at-most-one-appointment-
per-instant invariant is preserved. -/
theorem book_unique_slot_per_admin
    (parseNaive zoneOffset : String → Option Int) (defaultTz : String)
    (page : PageContext) (body : BookBody) (faults : BookStep → Bool)
    (now : Int) (db : Db) (utcDate : Int)
    (h1 : isTruthy body.client_name = true) (h2 : isTruthy body.client_email = true)
    (h3 : isTruthy body.appointment_date = true)
    (hp : fromZonedTime parseNaive zoneOffset (body.appointment_date.getD "")
      (sourceTimezone body.client_timezone defaultTz) = some utcDate)
    (hnf : ∀ s, faults s = false) :
    (hasConflict db page.admin_id utcDate = true →
      book parseNaive zoneOffset defaultTz page body faults now db = (.slotConflict, db)) ∧
    (hasConflict db page.admin_id utcDate = false →
      ∃ a : Appointment,
        (book parseNaive zoneOffset defaultTz page body faults now db).1 = .created a.id ∧
        (book parseNaive zoneOffset defaultTz page body faults now db).2.appointments =
          db.appointments ++ [a] ∧
        a.admin_id = page.admin_id ∧ a.appointment_date = utcDate) ∧
    (adminSlotUnique db = true →
      adminSlotUnique (book parseNaive zoneOffset defaultTz page body faults now db).2 = true) := by
  rw [book_valid_unfold parseNaive zoneOffset defaultTz page body faults now db utcDate h1 h2 h3 hp]
  rw [hnf BookStep.conflictQuery, hnf BookStep.insertAppt, hnf BookStep.insertCustomData,
    hnf BookStep.insertThankYou, hnf BookStep.commit]
  simp only [Bool.and_false, Bool.false_eq_true, if_false]
  by_cases hconf : hasConflict db page.admin_id utcDate
  · rw [if_pos hconf]
    refine ⟨fun _ => rfl, fun hfalse => ?_, fun hinv => hinv⟩
    rw [hconf] at hfalse
    cases hfalse
  · rw [if_neg hconf]
    have hconf' : hasConflict db page.admin_id utcDate = false := by
      simpa using hconf
    refine ⟨fun htrue => ?_, fun _ => ?_, fun hinv => ?_⟩
    · rw [htrue] at hconf'
      cases hconf'
    · exact ⟨⟨nextApptId db, page.admin_id, some page.slug_id, body.client_name.getD "",
        body.client_email.getD "", utcDate, body.details, now⟩, rfl, rfl, rfl, rfl⟩
    · unfold adminSlotUnique at hinv ⊢
      refine noDoubleBooking_append db.appointments _ hinv ?_
      intro b hb hbc
      exact hasConflict_false db page.admin_id utcDate hconf' b hb ⟨hbc.2, hbc.1⟩

/-- Concrete date parser for witnesses: the date-fns parse of one fixed
local date-time string (minute count 600). -/
def wParse : String → Option Int := fun s => if s == "2025-06-01 10:00" then some 600 else none

/-- Concrete zone database for witnesses. -/
def wZone : String → Option Int := fun s =>
  if s == "Europe/London" then some 60 else if s == "Etc/UTC" then some 0 else none

def wBody : BookBody :=
  ⟨some "Ada", some "a@x.com", some "2025-06-01 10:00", some "Europe/London", none, []⟩

def wPage : PageContext := ⟨1, 4, []⟩

/-- One existing appointment for admin 1 at UTC instant 540, booked
through a different page (slug 9). -/
def wDbConflict : Db :=
  ⟨[⟨3, 1, some 9, "Bob", "b@x.com", 540, none, 0⟩], [], [], [], []⟩

theorem book_unique_slot_per_admin_witness :
    hasConflict wDbConflict 1 540 = true ∧
    book wParse wZone "Etc/UTC" wPage wBody (fun _ => false) 100 wDbConflict =
      (.slotConflict, wDbConflict) := by
  have h := book_unique_slot_per_admin wParse wZone "Etc/UTC" wPage wBody (fun _ => false)
    100 wDbConflict 540 (by decide) (by decide) (by decide) (by decide) (fun _ => rfl)
  exact ⟨by decide, h.1 (by decide)⟩

theorem book_missing_field (parseNaive zoneOffset : String → Option Int) (defaultTz : String)
    (page : PageContext) (body : BookBody) (faults : BookStep → Bool) (now : Int) (db : Db)
    (h : isTruthy body.client_name = false ∨ isTruthy body.client_email = false ∨
      isTruthy body.appointment_date = false) :
    book parseNaive zoneOffset defaultTz page body faults now db = (.invalidInput, db) := by
  unfold book
  rcases h with h | h | h <;> rw [h] <;> simp

theorem book_parse_fail (parseNaive zoneOffset : String → Option Int) (defaultTz : String)
    (page : PageContext) (body : BookBody) (faults : BookStep → Bool) (now : Int) (db : Db)
    (h1 : isTruthy body.client_name = true) (h2 : isTruthy body.client_email = true)
    (h3 : isTruthy body.appointment_date = true)
    (hp : fromZonedTime parseNaive zoneOffset (body.appointment_date.getD "")
      (sourceTimezone body.client_timezone defaultTz) = none) :
    book parseNaive zoneOffset defaultTz page body faults now db = (.invalidInput, db) := by
  unfold book
  rw [h1, h2, h3, hp]
  simp

/-- Claim C2: the book handler signals InvalidInput (400) exactly when
client_name, client_email or appointment_date is absent (falsy), or the
supplied zone/time cannot be converted; and on every non-created outcome
— InvalidInput, SlotConflict, or any store fault before commit — the
store is left unchanged: no appointment, custom-field-value or thank-you
row becomes visible. -/
theorem book_invalid_input_iff_rollback
    (parseNaive zoneOffset : String → Option Int) (defaultTz : String)
    (page : PageContext) (body : BookBody) (faults : BookStep → Bool)
    (now : Int) (db : Db) :
    ((book parseNaive zoneOffset defaultTz page body faults now db).1 = .invalidInput ↔
      (isTruthy body.client_name = false ∨ isTruthy body.client_email = false ∨
        isTruthy body.appointment_date = false ∨
        fromZonedTime parseNaive zoneOffset (body.appointment_date.getD "")
          (sourceTimezone body.client_timezone defaultTz) = none)) ∧
    ((∀ i, (book parseNaive zoneOffset defaultTz page body faults now db).1 ≠ .created i) →
      (book parseNaive zoneOffset defaultTz page body faults now db).2 = db) := by
  cases hb1 : isTruthy body.client_name with
  | false =>
    rw [book_missing_field parseNaive zoneOffset defaultTz page body faults now db (Or.inl hb1)]
    exact ⟨⟨fun _ => Or.inl rfl, fun _ => rfl⟩, fun _ => rfl⟩
  | true =>
    cases hb2 : isTruthy body.client_email with
    | false =>
      rw [book_missing_field parseNaive zoneOffset defaultTz page body faults now db
        (Or.inr (Or.inl hb2))]
      exact ⟨⟨fun _ => Or.inr (Or.inl rfl), fun _ => rfl⟩, fun _ => rfl⟩
    | true =>
      cases hb3 : isTruthy body.appointment_date with
      | false =>
        rw [book_missing_field parseNaive zoneOffset defaultTz page body faults now db
          (Or.inr (Or.inr hb3))]
        exact ⟨⟨fun _ => Or.inr (Or.inr (Or.inl rfl)), fun _ => rfl⟩, fun _ => rfl⟩
      | true =>
        cases hpz : fromZonedTime parseNaive zoneOffset (body.appointment_date.getD "")
            (sourceTimezone body.client_timezone defaultTz) with
        | none =>
          rw [book_parse_fail parseNaive zoneOffset defaultTz page body faults now db
            hb1 hb2 hb3 hpz]
          exact ⟨⟨fun _ => Or.inr (Or.inr (Or.inr rfl)), fun _ => rfl⟩, fun _ => rfl⟩
        | some utc =>
          rw [book_valid_unfold parseNaive zoneOffset defaultTz page body faults now db utc
            hb1 hb2 hb3 hpz]
          refine ⟨⟨fun hout => ?_, fun hd => ?_⟩, fun hni => ?_⟩
          · exfalso
            revert hout
            repeat' split
            all_goals simp
          · exfalso
            rcases hd with hd | hd | hd | hd <;> cases hd
          · revert hni
            repeat' split
            all_goals intro hni
            all_goals first
              | rfl
              | exact absurd rfl (hni _)

def wBodyNoName : BookBody := ⟨none, some "a@x.com", some "2025-06-01 10:00", none, none, []⟩

theorem book_invalid_input_iff_rollback_witness :
    (book wParse wZone "Etc/UTC" wPage wBodyNoName (fun _ => false) 100 emptyDb).1 =
      .invalidInput ∧
    (book wParse wZone "Etc/UTC" wPage wBodyNoName (fun _ => false) 100 emptyDb).2 = emptyDb := by
  have h := book_invalid_input_iff_rollback wParse wZone "Etc/UTC" wPage wBodyNoName
    (fun _ => false) 100 emptyDb
  refine ⟨h.1.2 (Or.inl (by decide)), h.2 ?_⟩
  intro i hi
  cases hi

def c5Body : BookBody :=
  ⟨some "Ada", some "a@x.com", some "2025-06-01 10:00", some "Europe/London", none,
    [("thankYouMessage", "Thanks for meeting!")]⟩

/-- Claim C5 counterexample: the booking request explicitly supplies a
thank-you body ("thankYouMessage" lands in the rest-spread like every
non-destructured key), the booking succeeds, yet the inserted ThankYou
row has message null — the insert hardcodes NULL, so a supplied body is
never stored, contradicting the claim's "unless a body was explicitly
supplied (in which case the supplied body is stored)". -/
theorem book_thankyou_ignores_supplied_body_cex :
    c5Body.custom_fields = [("thankYouMessage", "Thanks for meeting!")] ∧
    (book wParse wZone "Etc/UTC" wPage c5Body (fun _ => false) 100 emptyDb).1 = .created 1 ∧
    (book wParse wZone "Etc/UTC" wPage c5Body
        (fun _ => false) 100 emptyDb).2.thank_you_messages.map (·.message) = [none] := by
  refine ⟨rfl, rfl, rfl⟩

/-- Claim C5 (amended): every successful book inserts exactly one ThankYou
ScheduledMessage whose send-time is the appointment's UTC instant plus 24
hours, with status pending, and whose message body is always null — a
body supplied in the booking request is ignored (the insert hardcodes
NULL; a thank-you body can only be set later through the thank-you update
endpoint). -/
theorem book_thankyou_always_null_amended
    (parseNaive zoneOffset : String → Option Int) (defaultTz : String)
    (page : PageContext) (body : BookBody) (now : Int) (db : Db) (utcDate : Int)
    (h1 : isTruthy body.client_name = true) (h2 : isTruthy body.client_email = true)
    (h3 : isTruthy body.appointment_date = true)
    (hp : fromZonedTime parseNaive zoneOffset (body.appointment_date.getD "")
      (sourceTimezone body.client_timezone defaultTz) = some utcDate)
    (hnc : hasConflict db page.admin_id utcDate = false) :
    (book parseNaive zoneOffset defaultTz page body (fun _ => false) now db).1 =
      .created (nextApptId db) ∧
    (book parseNaive zoneOffset defaultTz page body
        (fun _ => false) now db).2.thank_you_messages =
      db.thank_you_messages ++
        [⟨nextMsgId db.thank_you_messages, nextApptId db, utcDate + 1440, none, .pending⟩] := by
  rw [book_valid_unfold parseNaive zoneOffset defaultTz page body (fun _ => false) now db
    utcDate h1 h2 h3 hp, hnc]
  simp

theorem book_thankyou_always_null_amended_witness :
    hasConflict emptyDb 1 540 = false ∧
    (book wParse wZone "Etc/UTC" wPage wBody (fun _ => false) 100 emptyDb).2.thank_you_messages =
      [⟨1, 1, 1980, none, .pending⟩] := by
  have h := book_thankyou_always_null_amended wParse wZone "Etc/UTC" wPage wBody 100 emptyDb
    540 (by decide) (by decide) (by decide) (by decide) (by decide)
  exact ⟨by decide, h.2⟩

def c7Page : PageContext := ⟨1, 4, [⟨5, "company", "Company"⟩]⟩

def c7Body : BookBody :=
  ⟨some "Ada", some "a@x.com", some "2025-06-01 10:00", some "Europe/London", none,
    [("company", "")]⟩

/-- Claim C7 counterexample: the request provides the entry
("company", "") whose key matches the page's defined field (id 5), yet
the booking succeeds with no CustomFieldValue row inserted: the handler's
truthiness check custom_fields[field.field_name] skips falsy (empty)
values, contradicting the claim that every provided entry whose field
name matches a defined field results in a row. -/
theorem book_empty_custom_value_dropped_cex :
    c7Page.fields = [⟨5, "company", "Company"⟩] ∧
    c7Body.custom_fields = [("company", "")] ∧
    (book wParse wZone "Etc/UTC" c7Page c7Body (fun _ => false) 100 emptyDb).1 = .created 1 ∧
    (book wParse wZone "Etc/UTC" c7Page c7Body
        (fun _ => false) 100 emptyDb).2.appointment_custom_data = [] := by
  refine ⟨rfl, rfl, rfl, rfl⟩

/-- Claim C7 (amended): on a successful booking, every provided
custom-field entry with a non-empty (truthy) value whose key matches a
CustomFieldDefinition of the page results in a CustomFieldValue row for
the new appointment; every other provided entry — an unmatched key, or a
matched key with an empty value — is silently ignored (every inserted row
comes from a defined field), and the booking still succeeds. -/
theorem book_custom_fields_amended
    (parseNaive zoneOffset : String → Option Int) (defaultTz : String)
    (page : PageContext) (body : BookBody) (now : Int) (db : Db) (utcDate : Int)
    (h1 : isTruthy body.client_name = true) (h2 : isTruthy body.client_email = true)
    (h3 : isTruthy body.appointment_date = true)
    (hp : fromZonedTime parseNaive zoneOffset (body.appointment_date.getD "")
      (sourceTimezone body.client_timezone defaultTz) = some utcDate)
    (hnc : hasConflict db page.admin_id utcDate = false) :
    (book parseNaive zoneOffset defaultTz page body (fun _ => false) now db).1 =
      .created (nextApptId db) ∧
    (∀ f ∈ page.fields, ∀ v, body.custom_fields.lookup f.field_name = some v → v ≠ "" →
      (⟨nextApptId db, f.id, v⟩ : CustomFieldValue) ∈
        (book parseNaive zoneOffset defaultTz page body
          (fun _ => false) now db).2.appointment_custom_data) ∧
    (∀ r ∈ (book parseNaive zoneOffset defaultTz page body
        (fun _ => false) now db).2.appointment_custom_data,
      r ∉ db.appointment_custom_data → ∃ f ∈ page.fields, r.slug_field_id = f.id) := by
  rw [book_valid_unfold parseNaive zoneOffset defaultTz page body (fun _ => false) now db
    utcDate h1 h2 h3 hp, hnc]
  simp only [Bool.and_false, Bool.false_eq_true, if_false]
  refine ⟨trivial, ?_, ?_⟩
  · intro f hf v hv hne
    apply List.mem_append_right
    unfold customRows
    refine List.mem_filterMap.2 ⟨f, hf, ?_⟩
    rw [hv]
    simp [hne]
  · intro r hr hnew
    rcases List.mem_append.1 hr with h | h
    · exact absurd h hnew
    · unfold customRows at h
      obtain ⟨f, hf, hfr⟩ := List.mem_filterMap.1 h
      refine ⟨f, hf, ?_⟩
      cases hl : body.custom_fields.lookup f.field_name with
      | none =>
        simp [hl] at hfr
      | some v =>
        simp only [hl] at hfr
        split at hfr
        · cases hfr
        · cases hfr
          rfl

theorem book_custom_fields_amended_witness :
    hasConflict emptyDb 1 540 = false ∧
    (⟨1, 5, "Acme"⟩ : CustomFieldValue) ∈
      (book wParse wZone "Etc/UTC" c7Page
        ⟨some "Ada", some "a@x.com", some "2025-06-01 10:00", some "Europe/London", none,
          [("company", "Acme"), ("ignored", "zzz")]⟩
        (fun _ => false) 100 emptyDb).2.appointment_custom_data := by
  have h := book_custom_fields_amended wParse wZone "Etc/UTC" c7Page
    ⟨some "Ada", some "a@x.com", some "2025-06-01 10:00", some "Europe/London", none,
      [("company", "Acme"), ("ignored", "zzz")]⟩
    100 emptyDb 540 (by decide) (by decide) (by decide) (by decide) (by decide)
  exact ⟨by decide, h.2.1 ⟨5, "company", "Company"⟩ (by decide) "Acme" (by decide) (by decide)⟩

def c4Appt1 : Appointment := ⟨1, 1, some 7, "Ada", "a@x.com", 540, some "d", 10⟩

def c4Appt2 : Appointment := ⟨1, 1, none, "Ada", "a@x.com", 540, some "d", 10⟩

/-- Claim C4 counterexample: two stores whose only appointment differs
exactly in its page linkage (slug_id some 7 vs none) yield identical
cancellation results — the DELETE /:id handler copies id, admin_id,
client_name, client_email, appointment_date, details and created_at into
cancelled_appointments but not slug_id, so the cancelled record retains
no trace of the page, contradicting the claim that all fields are copied
byte-identically with the page linkage preserved. -/
theorem cancel_drops_page_linkage_cex :
    c4Appt1.slug_id ≠ c4Appt2.slug_id ∧
    toCancelled c4Appt1 99 = toCancelled c4Appt2 99 ∧
    (cancelAppointment 1 1 99 ⟨[c4Appt1], [], [], [], []⟩).2.cancelled_appointments =
      (cancelAppointment 1 1 99 ⟨[c4Appt2], [], [], [], []⟩).2.cancelled_appointments := by
  refine ⟨by decide, rfl, rfl⟩

/-- Claim C4 (amended): every successful cancel copies the appointment's
id, admin_id, client_name, client_email, appointment_date, details and
created_at unchanged into the CancelledAppointment record — every column
except the page (slug_id) linkage, which is dropped — and afterwards that
id is no longer retrievable as an active appointment. -/
theorem cancel_copies_fields_amended
    (aid adminId : Nat) (now : Int) (db db2 : Db)
    (hc : cancelAppointment aid adminId now db = (.success, db2)) :
    ∃ a ∈ db.appointments, a.id = aid ∧ a.admin_id = adminId ∧
      db2.cancelled_appointments = db.cancelled_appointments ++ [toCancelled a now] ∧
      (toCancelled a now).id = a.id ∧ (toCancelled a now).admin_id = a.admin_id ∧
      (toCancelled a now).client_name = a.client_name ∧
      (toCancelled a now).client_email = a.client_email ∧
      (toCancelled a now).appointment_date = a.appointment_date ∧
      (toCancelled a now).details = a.details ∧
      (toCancelled a now).created_at = a.created_at ∧
      ∀ x ∈ db2.appointments, x.id ≠ aid := by
  unfold cancelAppointment at hc
  cases hfind : db.appointments.find? (fun a => a.id == aid && a.admin_id == adminId) with
  | none =>
    rw [hfind] at hc
    cases hc
  | some a0 =>
    rw [hfind] at hc
    simp only [Prod.mk.injEq] at hc
    obtain ⟨-, h2⟩ := hc
    subst h2
    have hmem := List.mem_of_find?_eq_some hfind
    have hpred := List.find?_some hfind
    simp only [Bool.and_eq_true, beq_iff_eq] at hpred
    refine ⟨a0, hmem, hpred.1, hpred.2, rfl, rfl, rfl, rfl, rfl, rfl, rfl, rfl, ?_⟩
    intro x hx
    have := (List.mem_filter.1 hx).2
    simpa using this

theorem cancel_copies_fields_amended_witness :
    cancelAppointment 1 1 99 (⟨[c4Appt1], [], [], [], []⟩ : Db) =
      (.success, (cancelAppointment 1 1 99 (⟨[c4Appt1], [], [], [], []⟩ : Db)).2) ∧
    (cancelAppointment 1 1 99 (⟨[c4Appt1], [], [], [], []⟩ : Db)).2.cancelled_appointments =
      [toCancelled c4Appt1 99] := by
  obtain ⟨a, ha, -, -, hcc, -⟩ := cancel_copies_fields_amended 1 1 99
    ⟨[c4Appt1], [], [], [], []⟩ (cancelAppointment 1 1 99 ⟨[c4Appt1], [], [], [], []⟩).2 rfl
  have haa : a = c4Appt1 := by simpa using ha
  subst haa
  exact ⟨rfl, by rw [hcc]; rfl⟩

/-- Claim C8: with the appointment resolved and the supplied time parsed,
reminder creation and reminder update signal InvalidInput exactly when
the reminder instant is greater than or equal to the appointment instant
(equality rejected — strict inequality), and thank-you update signals
InvalidInput exactly when the new send instant is less than or equal to
the appointment instant (equality rejected); instants strictly on the
accepted side are never rejected by this check. -/
theorem strict_time_validation
    (parseNaive zoneOffset : String → Option Int) (defaultTz : String)
    (appointmentId reminderId adminId : Nat) (rbody : ReminderBody) (tbody : ThankYouBody)
    (db : Db) (appointment : Appointment) (t u : Int)
    (hfA : findAppointment db appointmentId adminId = some appointment)
    (hrt : isTruthy rbody.reminder_time = true)
    (hpr : fromZonedTime parseNaive zoneOffset (rbody.reminder_time.getD "")
      (sourceTimezone rbody.client_timezone defaultTz) = some t)
    (hst : isTruthy tbody.send_time = true)
    (hpt : fromZonedTime parseNaive zoneOffset (tbody.send_time.getD "")
      (sourceTimezone tbody.client_timezone defaultTz) = some u) :
    ((createReminder parseNaive zoneOffset defaultTz appointmentId adminId rbody db).1 =
        .invalidInput ↔ appointment.appointment_date ≤ t) ∧
    ((updateReminder parseNaive zoneOffset defaultTz appointmentId reminderId adminId
        rbody db).1 = .invalidInput ↔ appointment.appointment_date ≤ t) ∧
    ((updateThankYou parseNaive zoneOffset defaultTz appointmentId adminId tbody db).1 =
        .invalidInput ↔ u ≤ appointment.appointment_date) := by
  refine ⟨?_, ?_, ?_⟩
  · unfold createReminder
    rw [hrt, hfA, hpr]
    simp only [Bool.not_true, Bool.false_eq_true, if_false]
    by_cases hle : appointment.appointment_date ≤ t
    · rw [if_pos hle]
      simp [hle]
    · rw [if_neg hle]
      simp [hle]
  · unfold updateReminder
    rw [hrt, hfA, hpr]
    simp only [Bool.not_true, Bool.false_and, Bool.false_eq_true, if_false, if_true]
    by_cases hle : appointment.appointment_date ≤ t
    · rw [if_pos hle]
      simp [hle]
    · rw [if_neg hle]
      unfold reminderRowUpdate
      split <;> simp [hle]
  · unfold updateThankYou
    rw [hst, hfA, hpt]
    simp only [Bool.not_true, Bool.and_false, Bool.false_eq_true, if_false, if_true]
    by_cases hle : u ≤ appointment.appointment_date
    · rw [if_pos hle]
      simp [hle]
    · rw [if_neg hle]
      unfold thankYouRowUpdate
      split <;> simp [hle]

def c8Db : Db :=
  ⟨[⟨1, 1, none, "Ada", "a@x.com", 600, none, 0⟩], [], [],
    [⟨3, 1, 2040, none, .pending⟩], [⟨2, 1, 300, none, .pending⟩]⟩

def c8RBody : ReminderBody := ⟨some "2025-06-01 10:00", some "Europe/London", none⟩

def c8TBody : ThankYouBody := ⟨none, some "2025-06-01 10:00", some "Europe/London"⟩

theorem strict_time_validation_witness :
    findAppointment c8Db 1 1 = some ⟨1, 1, none, "Ada", "a@x.com", 600, none, 0⟩ ∧
    ((createReminder wParse wZone "Etc/UTC" 1 1 c8RBody c8Db).1 = .invalidInput ↔
      (600 : Int) ≤ 540) := by
  have h := strict_time_validation wParse wZone "Etc/UTC" 1 5 1 c8RBody c8TBody c8Db
    ⟨1, 1, none, "Ada", "a@x.com", 600, none, 0⟩ 540 540
    (by decide) (by decide) (by decide) (by decide) (by decide)
  exact ⟨by decide, h.1⟩

def c9Page : PageContext := ⟨1, 3, []⟩

def c9Db : Db := ⟨[⟨1, 1, some 3, "Ada", "a@x.com", 1000, none, 0⟩], [], [], [], []⟩

def c9Zone : String → Option Int := fun s =>
  if s == "America/New_York" then some (-300) else if s == "Etc/UTC" then some 0 else none

/-- Claim C9 counterexample: with the configured default zone
America/New_York (offset -300 minutes), the page's booked appointment at
UTC instant 1000 is returned as the wall-clock value 700 — formatted in
the default zone by formatInTimeZone, not in UTC: the UTC-formatted value
1000 does not appear in bookedSlots, contradicting the claim that each
booked appointment's date-time appears as a UTC-formatted string. -/
theorem bookedSlots_not_utc_cex :
    bookedSlots c9Zone "America/New_York" c9Page c9Db = .ok "America/New_York" [700] ∧
    (1000 : Int) ∉ [(700 : Int)] := by
  exact ⟨rfl, by decide⟩

/-- Claim C9 (amended): for every valid page, when the configured default
zone resolves, the booked-slots endpoint returns an object whose timezone
field is that configured default zone and whose bookedSlots array
contains each of the page's booked appointments' date-times formatted in
that zone (wall-clock value = UTC instant + zone offset) — UTC-formatted
only when the default zone is UTC — and every returned slot comes from
such an appointment. -/
theorem bookedSlots_default_zone_amended
    (zoneOffset : String → Option Int) (defaultTz : String) (page : PageContext) (db : Db)
    (off : Int) (hz : zoneOffset defaultTz = some off) :
    ∃ slots, bookedSlots zoneOffset defaultTz page db = .ok defaultTz slots ∧
      (∀ a ∈ db.appointments, a.admin_id = page.admin_id → a.slug_id = some page.slug_id →
        a.appointment_date + off ∈ slots) ∧
      (∀ s ∈ slots, ∃ a ∈ db.appointments, a.admin_id = page.admin_id ∧
        a.slug_id = some page.slug_id ∧ s = a.appointment_date + off) := by
  unfold bookedSlots
  cases hrows : List.insertionSort (fun a b => a.appointment_date ≤ b.appointment_date)
      (pageAppointments page db) with
  | nil =>
    rw [hz]
    refine ⟨[], rfl, ?_, by simp⟩
    intro a ha hadm hslug
    exfalso
    have hmem : a ∈ pageAppointments page db := by
      unfold pageAppointments
      refine List.mem_filter.2 ⟨ha, ?_⟩
      simp [hadm, hslug]
    rw [← List.mem_insertionSort (fun a b => a.appointment_date ≤ b.appointment_date),
      hrows] at hmem
    cases hmem
  | cons r rs =>
    rw [hz]
    refine ⟨(r :: rs).map (fun a => a.appointment_date + off), rfl, ?_, ?_⟩
    · intro a ha hadm hslug
      refine List.mem_map.2 ⟨a, ?_, rfl⟩
      rw [← hrows, List.mem_insertionSort]
      unfold pageAppointments
      exact List.mem_filter.2 ⟨ha, by simp [hadm, hslug]⟩
    · intro s hs
      obtain ⟨a, ha, hsa⟩ := List.mem_map.1 hs
      rw [← hrows, List.mem_insertionSort] at ha
      unfold pageAppointments at ha
      obtain ⟨ha1, ha2⟩ := List.mem_filter.1 ha
      simp only [Bool.and_eq_true, beq_iff_eq] at ha2
      exact ⟨a, ha1, ha2.1, ha2.2, hsa.symm⟩

theorem bookedSlots_default_zone_amended_witness :
    c9Zone "America/New_York" = some (-300) ∧
    (1000 : Int) + (-300) ∈ [(700 : Int)] := by
  obtain ⟨slots, hs, hmem, -⟩ := bookedSlots_default_zone_amended c9Zone "America/New_York"
    c9Page c9Db (-300) (by decide)
  have h1 : (⟨1, 1, some 3, "Ada", "a@x.com", 1000, none, 0⟩ : Appointment) ∈
      c9Db.appointments := by decide
  have h2 := hmem _ h1 (by decide) (by decide)
  have heq : SlotsOutcome.ok "America/New_York" slots = .ok "America/New_York" [700] :=
    hs.symm.trans rfl
  injection heq with hA hB
  rw [hB] at h2
  exact ⟨by decide, h2⟩

end Calendr
